import Mathlib

/-!
Verification development for the eclabfiles conversion core
(src/eclabfiles/main.py): extension dispatch, table extraction from
parsed EC-Lab files, deterministic output-path construction, and the
CSV/XLSX writers.

The Python code is shallowly embedded: paths are strings manipulated
through embeddings of posixpath.split, posixpath.splitext and
posixpath.join; the three format parsers (parse_mpt, parse_mpr,
parse_mps) are external collaborators and are modelled as an oracle
mapping paths to their structured results; file writes are modelled as
the list of (path, content) pairs the function emits; Python exceptions
are modelled with Except.
-/

/-- Errors the embedded Python code can raise: ValueError (raised
explicitly by to_df), UnboundLocalError (reading a never-assigned local,
as in parse's fall-through), IndexError (list subscript out of range). -/
inductive PyError where
  | valueError (msg : String) : PyError
  | unboundLocal (name : String) : PyError
  | indexError : PyError
deriving DecidableEq

deriving instance DecidableEq for Except

/-- Last index of character c in l, or none: embeds str.rfind scanning
from the right. -/
def rfindAux (c : Char) : List Char → Option Nat
  | [] => none
  | x :: xs =>
    match rfindAux c xs with
    | some i => some (i + 1)
    | none => if x = c then some 0 else none

/-- Embeds Python str.rfind: last index of c in l, or -1 if absent. -/
def rfind (c : Char) (l : List Char) : Int :=
  match rfindAux c l with
  | some i => (i : Int)
  | none => -1

/-- Embeds posixpath.split on the character list of a path: split at the
last slash; the head keeps no trailing slashes unless it is all
slashes. -/
def splitChars (p : List Char) : List Char × List Char :=
  let i : Nat := (rfind '/' p + 1).toNat
  let head := p.take i
  let tail := p.drop i
  if !head.isEmpty && head.any (fun c => c != '/') then
    ((head.reverse.dropWhile (fun c => c == '/')).reverse, tail)
  else (head, tail)

/-- Embeds posixpath.splitext on the character list of a path: split off
the extension at the last dot, provided that dot lies after the last
slash and the name before it is not entirely dots. -/
def splitextChars (p : List Char) : List Char × List Char :=
  let sepIndex : Int := rfind '/' p
  let dotIndex : Int := rfind '.' p
  if sepIndex < dotIndex then
    let dI : Nat := dotIndex.toNat
    let fI : Nat := (sepIndex + 1).toNat
    if ((p.drop fI).take (dI - fI)).any (fun c => c != '.') then
      (p.take dI, p.drop dI)
    else (p, [])
  else (p, [])

/-- Embeds posixpath.join of a head and one further component. -/
def joinChars (a b : List Char) : List Char :=
  if b.head? == some '/' then b
  else if a.isEmpty || (a.getLast? == some '/') then a ++ b
  else a ++ '/' :: b

/-- Embeds main._construct_path: head, tail = os.path.split(other_path);
tail, _ = os.path.splitext(tail); return os.path.join(head, tail+ext). -/
def _construct_path (other_path : String) (ext : String) : String :=
  let ht := splitChars other_path.data
  let te := splitextChars ht.2
  String.mk (joinChars ht.1 (te.1 ++ ext.data))

/-- The extension of a path as computed by os.path.splitext, used by the
dispatch in parse and to_df. -/
def pathExt (p : String) : String :=
  String.mk (splitextChars p.data).2

/-- Exactly k decimal digit characters of n, most significant first,
zero-padded on the left (faithful for n less than ten to the k). -/
def digitsFixed : Nat → Nat → List Char
  | 0, _ => []
  | k + 1, n => digitsFixed k (n / 10) ++ [Char.ofNat (48 + n % 10)]

/-- Decimal digit characters of n with no leading zeros. -/
def natDigits (n : Nat) : List Char :=
  if n = 0 then ['0'] else (digitsFixed (n + 1) n).dropWhile (fun c => c == '0')

/-- Decimal string of a natural number. -/
def natStr (n : Nat) : String :=
  String.mk (natDigits n)

/-- Embeds the Python format specifier 02d used for technique numbering:
zero-pad the decimal form of n to a minimum width of two. -/
def pad2 (n : Nat) : String :=
  if n < 10 then "0" ++ natStr n else natStr n

/-- The spec-level PathDeriver.derive: in the code this is exactly a
call _construct_path(path, newExtension). -/
def derive (p : String) (e : String) : String :=
  _construct_path p e

/-- The spec-level PathDeriver.deriveIndexed: in the code this is the
call pattern _construct_path(path, "_" + format(i, "02d") + ext) used by
the writer loops. -/
def deriveIndexed (p : String) (i : Nat) (e : String) : String :=
  _construct_path p ("_" ++ pad2 i ++ e)

/-- A scalar cell value of a parsed record: a number (modelled as a
rational, standing for the Python float) or a string. -/
inductive Value where
  | num (x : ℚ) : Value
  | str (s : String) : Value
deriving DecidableEq

/-- A datapoint record: an ordered mapping from field name to value,
as produced by the parsers (Python dict with insertion order). -/
abbrev Record := List (String × Value)

/-- A pandas DataFrame built from a list of records; only the record
structure is modelled. -/
abbrev DataFrame := List Record

/-- Embeds pd.DataFrame.from_dict on a list of record dicts. -/
def DataFrame.from_dict (records : List Record) : DataFrame :=
  records

/-- Column names of a DataFrame built from records: union of the record
keys in order of first appearance, as pandas computes it. -/
def df_columns (d : DataFrame) : List String :=
  d.foldl (fun acc r => acc ++ ((r.map Prod.fst).filter (fun k => decide (k ∉ acc)))) []

/-- Result of parse_mpt: only the one key main.py reads (datapoints) is
modelled; the rest of the parsed dict is never touched by the core. -/
structure Mpt where
  datapoints : List Record
deriving DecidableEq

/-- The payload of one module of a parsed .mpr file, as accessed via
module-dict key data then key datapoints. -/
structure MprData where
  datapoints : List Record
deriving DecidableEq

/-- One module of a parsed .mpr file; main.py reads module dict key
data. -/
structure MprModule where
  data : MprData
deriving DecidableEq

/-- Result of parse_mpr: the ordered list of modules; main.py indexes
module 1, the data module. -/
abbrev Mpr := List MprModule

/-- The data dict of one technique of a parsed .mps file, holding the
optionally loaded nested text (.mpt) and binary (.mpr) results; a field
is none when the corresponding key is absent from the dict. -/
structure TechData where
  mpt : Option Mpt
  mpr : Option Mpr
deriving DecidableEq

/-- One technique of a parsed .mps file: its declaration index and the
optional data dict (none when the technique dict has no data key). -/
structure Technique where
  index : Nat
  data : Option TechData
deriving DecidableEq

/-- Result of parse_mps: the ordered list of techniques; main.py reads
only the techniques key. -/
structure Mps where
  techniques : List Technique
deriving DecidableEq

/-- The three external parser collaborators (parse_mpt, parse_mpr,
parse_mps), modelled as an oracle from path to parsed result; the Bool
argument of mps is its load_data flag. -/
structure Parsers where
  mpt : String → Mpt
  mpr : String → Mpr
  mps : String → Bool → Mps

/-- Python list subscript l index n: the element, or IndexError when out
of range. -/
def listGet (l : List α) (n : Nat) : Except PyError α :=
  match l.get? n with
  | some x => Except.ok x
  | none => Except.error PyError.indexError

/-- Embeds main.parse: dispatch on the extension; when no branch of the
if-chain matches, the local variable parsed was never assigned, so the
final return raises UnboundLocalError. -/
def parse (P : Parsers) (path : String) : Except PyError (Mpt ⊕ Mpr ⊕ Mps) :=
  if pathExt path = ".mpt" then Except.ok (Sum.inl (P.mpt path))
  else if pathExt path = ".mpr" then Except.ok (Sum.inr (Sum.inl (P.mpr path)))
  else if pathExt path = ".mps" then Except.ok (Sum.inr (Sum.inr (P.mps path false)))
  else Except.error (PyError.unboundLocal "parsed")

/-- Return type of to_df: a single DataFrame for .mpt/.mpr input, a list
of DataFrames for .mps input. -/
inductive DF where
  | single (d : DataFrame) : DF
  | multi (ds : List DataFrame) : DF
deriving DecidableEq

/-- Embeds the for-loop of to_df's .mps branch: iterate the techniques
in order; skip a technique without a data key; prefer the mpt entry of
the data dict, else use module 1 of the mpr entry; append the DataFrame
built from the chosen datapoints. An IndexError raised while handling
one technique aborts the whole loop. -/
def mpsLoop : List Technique → Except PyError (List DataFrame)
  | [] => Except.ok []
  | t :: rest =>
    match t.data with
    | none => mpsLoop rest
    | some d =>
      match d.mpt with
      | some m =>
        match mpsLoop rest with
        | Except.ok tail => Except.ok (DataFrame.from_dict m.datapoints :: tail)
        | Except.error e => Except.error e
      | none =>
        match d.mpr with
        | some mpr =>
          match listGet mpr 1 with
          | Except.ok md =>
            match mpsLoop rest with
            | Except.ok tail =>
              Except.ok (DataFrame.from_dict md.data.datapoints :: tail)
            | Except.error e => Except.error e
          | Except.error e => Except.error e
        | none => mpsLoop rest

/-- Embeds main.to_df: dispatch on the extension; .mpt gives one
DataFrame from the datapoints, .mpr one DataFrame from module 1's data,
.mps the list produced by the technique loop, anything else raises
ValueError. -/
def to_df (P : Parsers) (path : String) : Except PyError DF :=
  if pathExt path = ".mpt" then
    Except.ok (DF.single (DataFrame.from_dict (P.mpt path).datapoints))
  else if pathExt path = ".mpr" then
    match listGet (P.mpr path) 1 with
    | Except.ok md => Except.ok (DF.single (DataFrame.from_dict md.data.datapoints))
    | Except.error e => Except.error e
  else if pathExt path = ".mps" then
    match mpsLoop (P.mps path true).techniques with
    | Except.ok ds => Except.ok (DF.multi ds)
    | Except.error e => Except.error e
  else Except.error (PyError.valueError ("Unrecognized file extension: " ++ pathExt path))

/-- The table one technique contributes, if any: none without a data
key, else the mpt datapoints when present, else module 1 of the mpr
result. Describes one iteration of the loop in to_df. -/
def pick (t : Technique) : Option DataFrame :=
  match t.data with
  | none => none
  | some d =>
    match d.mpt with
    | some m => some (DataFrame.from_dict m.datapoints)
    | none =>
      match d.mpr with
      | some mpr => (mpr.get? 1).map (fun md => DataFrame.from_dict md.data.datapoints)
      | none => none

/-- A technique on which the loop cannot raise IndexError: whenever its
binary result is the one consulted, that result has at least the two
modules the code indexes into. -/
def techWF (t : Technique) : Bool :=
  match t.data with
  | none => true
  | some d =>
    match d.mpt with
    | some _ => true
    | none =>
      match d.mpr with
      | some mpr => decide (2 ≤ mpr.length)
      | none => true

/-- A technique the loop of to_df silently skips: no data key at all, or
a data dict holding neither an mpt nor an mpr key. -/
def unusable (t : Technique) : Bool :=
  match t.data with
  | none => true
  | some d =>
    match d.mpt with
    | some _ => false
    | none =>
      match d.mpr with
      | some _ => false
      | none => true

/-- Character list of a number rendered by the float_format %.15f used
in to_csv: optional sign, integer digits, a dot, then exactly fifteen
fractional digits. The scaled magnitude n is the nearest-integer
rounding of the absolute value times ten to the fifteenth, computed on
numerator and denominator so that it stands in for printf on the IEEE
double: n = floor(|q| * 10^15 + 1/2). -/
def fixed15Chars (q : ℚ) : List Char :=
  let n : Nat := (2 * q.num.natAbs * 10 ^ 15 + q.den) / (2 * q.den)
  (if q.num < 0 then ['-'] else []) ++
    natDigits (n / 10 ^ 15) ++ '.' :: digitsFixed 15 (n % 10 ^ 15)

/-- String form of the %.15f rendering. -/
def fixed15 (q : ℚ) : String :=
  String.mk (fixed15Chars q)

/-- How one DataFrame cell appears in the CSV output: numbers through
the %.15f float_format, strings verbatim, a missing key (pandas NaN) as
the empty string. -/
def render_cell : Option Value → String
  | none => ""
  | some (Value.num q) => fixed15 q
  | some (Value.str s) => s

/-- The lines of DataFrame.to_csv with float_format %.15f: a header of
the column names, then one line per record with the cells of that record
in column order; with index true (never used by main.py) pandas would
prepend a row-label column. -/
def csv_lines (d : DataFrame) (index : Bool) : List String :=
  String.intercalate "," ((if index then [""] else []) ++ df_columns d) ::
    d.enum.map (fun p =>
      String.intercalate ","
        ((if index then [natStr p.1] else []) ++
          (df_columns d).map (fun c => render_cell (List.lookup c p.2))))

/-- Full file content of DataFrame.to_csv: each line followed by a
newline. -/
def to_csv_string (d : DataFrame) (index : Bool) : String :=
  String.join ((csv_lines d index).map (fun l => l ++ "\n"))

/-- Python truthiness of the optional csv_path argument: None and the
empty string are falsy. -/
def pyTruthy : Option String → Bool
  | none => false
  | some s => !s.isEmpty

/-- Embeds the multi-table loop of to_csv: for i, df in enumerate(df),
write to the indexed path built from csv_path when csv_path is truthy,
and in every case to the indexed path built from the source path. -/
def csvLoop (path : String) (csv_path : Option String) :
    List (Nat × DataFrame) → List (String × String)
  | [] => []
  | p :: rest =>
    (if pyTruthy csv_path then
      [(_construct_path (csv_path.getD "") ("_" ++ pad2 (p.1 + 1) ++ ".csv"),
        to_csv_string p.2 false)]
     else []) ++
    [(_construct_path path ("_" ++ pad2 (p.1 + 1) ++ ".csv"), to_csv_string p.2 false)] ++
    csvLoop path csv_path rest

/-- Embeds main.to_csv, returning the ordered list of (path, content)
file writes it performs; an exception from to_df propagates and nothing
is written. -/
def to_csv (P : Parsers) (path : String) (csv_path : Option String) :
    Except PyError (List (String × String)) :=
  match to_df P path with
  | Except.error e => Except.error e
  | Except.ok (DF.single d) =>
    let cp := match csv_path with
      | none => _construct_path path ".csv"
      | some s => s
    Except.ok [(cp, to_csv_string d false)]
  | Except.ok (DF.multi ds) => Except.ok (csvLoop path csv_path ds.enum)

/-- One sheet of an Excel workbook as pandas to_excel emits it: the
sheet name, the header cells, and the typed data cells; with index true
(never used by main.py) pandas would prepend a row-label column. -/
structure Sheet where
  name : String
  header : List String
  rows : List (List (Option Value))
deriving DecidableEq

/-- Embeds df.to_excel(..., sheet_name, index): the sheet written for
one DataFrame. -/
def df_to_sheet (nm : String) (d : DataFrame) (index : Bool) : Sheet :=
  { name := nm
    header := (if index then [""] else []) ++ df_columns d
    rows := d.enum.map (fun p =>
      (if index then [some (Value.str (natStr p.1))] else []) ++
        (df_columns d).map (fun c => List.lookup c p.2)) }

/-- Embeds the multi-table loop of to_xlsx: one sheet per DataFrame,
named by the zero-padded one-based position, appended in order. -/
def xlsxLoop (ds : List (Nat × DataFrame)) : List Sheet :=
  ds.map (fun p => df_to_sheet (pad2 (p.1 + 1)) p.2 false)

/-- Embeds main.to_xlsx, returning the list of (path, sheets) workbook
writes it performs; pandas names the sheet of a single-table workbook
Sheet1 by default. -/
def to_xlsx (P : Parsers) (path : String) (xlsx_path : Option String) :
    Except PyError (List (String × List Sheet)) :=
  match to_df P path with
  | Except.error e => Except.error e
  | Except.ok df =>
    let xp := match xlsx_path with
      | none => _construct_path path ".xlsx"
      | some s => s
    match df with
    | DF.single d => Except.ok [(xp, [df_to_sheet "Sheet1" d false])]
    | DF.multi ds => Except.ok [(xp, xlsxLoop ds.enum)]

/-- Number of characters strictly after the last dot of a string. -/
def charsAfterLastDot (s : String) : Nat :=
  (s.data.reverse.takeWhile (fun c => c != '.')).length

/-- A trivial concrete parser oracle used to instantiate theorems at
concrete inputs. -/
def parsersEmpty : Parsers :=
  { mpt := fun _ => ⟨[]⟩
    mpr := fun _ => []
    mps := fun _ _ => ⟨[]⟩ }

/-- A concrete oracle whose settings result declares the three
techniques of the spec scenario: T1 without data, T2 with both a text
and a binary nested result, T3 with a binary nested result only. -/
def parsersThree : Parsers :=
  { mpt := fun _ => ⟨[]⟩
    mpr := fun _ => []
    mps := fun _ _ => ⟨[
      ⟨0, none⟩,
      ⟨1, some ⟨some ⟨[[("a", Value.str "t2")]]⟩,
               some [⟨⟨[]⟩⟩, ⟨⟨[[("a", Value.str "b2")]]⟩⟩]⟩⟩,
      ⟨2, some ⟨none, some [⟨⟨[]⟩⟩, ⟨⟨[[("a", Value.str "b3")]]⟩⟩]⟩⟩]⟩ }

/-- A concrete oracle whose settings result has exactly one technique,
carrying one text result of one record. -/
def parsersOneText : Parsers :=
  { mpt := fun _ => ⟨[]⟩
    mpr := fun _ => []
    mps := fun _ _ => ⟨[⟨0, some ⟨some ⟨[[("a", Value.str "x")]]⟩, none⟩⟩]⟩ }

/-- A concrete oracle whose settings result has two text techniques. -/
def parsersTwoText : Parsers :=
  { mpt := fun _ => ⟨[]⟩
    mpr := fun _ => []
    mps := fun _ _ => ⟨[
      ⟨0, some ⟨some ⟨[[("a", Value.str "x")]]⟩, none⟩⟩,
      ⟨1, some ⟨some ⟨[[("a", Value.str "y")]]⟩, none⟩⟩]⟩ }

/-- A concrete oracle whose text result has one numeric record, the
rational three halves given in normal form so that it evaluates. -/
def parsersNum : Parsers :=
  { mpt := fun _ => ⟨[[("v", Value.num (Rat.mk' 3 2))]]⟩
    mpr := fun _ => []
    mps := fun _ _ => ⟨[]⟩ }

/-- A concrete oracle whose settings result has only techniques without
usable data: one with no data key, one whose data dict holds neither an
mpt nor an mpr key. -/
def parsersUnusable : Parsers :=
  { mpt := fun _ => ⟨[]⟩
    mpr := fun _ => []
    mps := fun _ _ => ⟨[⟨0, none⟩, ⟨1, some ⟨none, none⟩⟩]⟩ }

theorem splitextChars_fst_append_snd (p : List Char) :
    (splitextChars p).1 ++ (splitextChars p).2 = p := by
  unfold splitextChars
  by_cases h1 : rfind '/' p < rfind '.' p
  · rw [if_pos h1]
    by_cases h2 : (((p.drop ((rfind '/' p + 1).toNat)).take
        ((rfind '.' p).toNat - (rfind '/' p + 1).toNat)).any (fun c => c != '.')) = true
    · rw [if_pos h2]
      exact List.take_append_drop _ _
    · rw [if_neg h2]
      exact List.append_nil _
  · rw [if_neg h1]
    exact List.append_nil _

theorem mpsLoop_eq_filterMap :
    ∀ ts : List Technique, (∀ t ∈ ts, techWF t = true) →
      mpsLoop ts = Except.ok (ts.filterMap pick) := by
  intro ts
  induction ts with
  | nil => intro _; rfl
  | cons t rest ih =>
    intro h
    have ht : techWF t = true := h t (by simp)
    have hrest := ih (fun x hx => h x (List.mem_cons_of_mem _ hx))
    obtain ⟨i, od⟩ := t
    cases od with
    | none => simp only [mpsLoop, List.filterMap_cons, pick, hrest]
    | some d =>
      obtain ⟨om, or⟩ := d
      cases om with
      | some m => simp only [mpsLoop, List.filterMap_cons, pick, hrest]
      | none =>
        cases or with
        | none => simp only [mpsLoop, List.filterMap_cons, pick, hrest]
        | some mpr =>
          have h1 : 1 < mpr.length := of_decide_eq_true ht
          obtain ⟨md, hmd⟩ : ∃ md, mpr.get? 1 = some md := by
            rw [List.get?_eq_get h1]
            exact ⟨_, rfl⟩
          simp only [mpsLoop, List.filterMap_cons, pick, hrest, listGet, hmd]
          rfl

theorem mpsLoop_skip_middle :
    ∀ (ts1 ts2 : List Technique) (i : Nat) (td : TechData),
      td.mpt = none → td.mpr = none →
      mpsLoop (ts1 ++ { index := i, data := some td } :: ts2) = mpsLoop (ts1 ++ ts2) := by
  intro ts1 ts2 i td hm hr
  obtain ⟨om, or⟩ := td
  cases om with
  | some m => exact absurd hm (by simp)
  | none =>
    cases or with
    | some mpr => exact absurd hr (by simp)
    | none =>
      induction ts1 with
      | nil => simp only [List.nil_append, mpsLoop]
      | cons t rest ih =>
        simp only [List.cons_append]
        unfold mpsLoop
        rw [ih]

theorem filterMap_length_lt {α β : Type} (f : α → Option β) :
    ∀ l : List α, (∃ x ∈ l, f x = none) → (l.filterMap f).length < l.length := by
  intro l
  induction l with
  | nil => rintro ⟨x, hx, _⟩; exact absurd hx (List.not_mem_nil x)
  | cons a l ih =>
    rintro ⟨x, hx, hfx⟩
    rcases List.mem_cons.mp hx with h | h
    · subst h
      rw [List.filterMap_cons, hfx]
      exact Nat.lt_succ_of_le (List.length_filterMap_le f l)
    · have := ih ⟨x, h, hfx⟩
      rw [List.filterMap_cons]
      cases f a with
      | none => exact Nat.lt_succ_of_lt this
      | some b => simpa using Nat.succ_lt_succ this

theorem length_digitsFixed : ∀ k n, (digitsFixed k n).length = k := by
  intro k
  induction k with
  | zero => intro n; rfl
  | succ k ih =>
    intro n
    simp only [digitsFixed, List.length_append, ih, List.length_cons, List.length_nil]

theorem digitsFixed_digit :
    ∀ k n c, c ∈ digitsFixed k n → c.isDigit = true ∧ c ≠ '.' := by
  intro k
  induction k with
  | zero => intro n c hc; exact absurd hc (List.not_mem_nil c)
  | succ k ih =>
    intro n c hc
    rcases List.mem_append.mp hc with h | h
    · exact ih _ c h
    · have hm : n % 10 < 10 := Nat.mod_lt _ (by decide)
      have hd : ∀ d < 10, (Char.ofNat (48 + d)).isDigit = true ∧
          Char.ofNat (48 + d) ≠ '.' := by decide
      rcases List.mem_singleton.mp h with rfl
      exact hd _ hm

theorem takeWhile_frac (p : Char → Bool) :
    ∀ l r : List Char, (∀ c ∈ l, p c = true) → p '.' = false →
      (l ++ '.' :: r).takeWhile p = l := by
  intro l
  induction l with
  | nil =>
    intro r _ hdot
    simp [List.takeWhile_cons, hdot]
  | cons a l ih =>
    intro r h hdot
    have ha : p a = true := h a (by simp)
    simp only [List.cons_append, List.takeWhile_cons, ha, if_true]
    rw [ih r (fun c hc => h c (List.mem_cons_of_mem _ hc)) hdot]

theorem afterDot_shape (pre : List Char) (m : Nat) :
    ((pre ++ '.' :: digitsFixed 15 m).reverse.takeWhile (fun c => c != '.')).length = 15 ∧
    ∀ c ∈ (pre ++ '.' :: digitsFixed 15 m).reverse.takeWhile (fun c => c != '.'),
      c.isDigit = true := by
  have hfrac : ∀ c ∈ (digitsFixed 15 m).reverse, (fun c => c != '.') c = true := by
    intro c hc
    have := (digitsFixed_digit _ _ c (List.mem_reverse.mp hc)).2
    simpa using this
  have hrev : (pre ++ '.' :: digitsFixed 15 m).reverse =
      (digitsFixed 15 m).reverse ++ '.' :: pre.reverse := by
    rw [List.reverse_append, List.reverse_cons, List.append_assoc, List.singleton_append]
  have htake := takeWhile_frac (fun c => c != '.') (digitsFixed 15 m).reverse pre.reverse
    hfrac (by decide)
  constructor
  · rw [hrev, htake, List.length_reverse, length_digitsFixed]
  · intro c hc
    rw [hrev, htake] at hc
    exact (digitsFixed_digit _ _ c (List.mem_reverse.mp hc)).1

theorem fixed15_digit_count :
    ∀ q : ℚ, charsAfterLastDot (fixed15 q) = 15 ∧
      ∀ c ∈ (fixed15 q).data.reverse.takeWhile (fun c => c != '.'), c.isDigit = true := by
  intro q
  have hdata : (fixed15 q).data =
      ((if q.num < 0 then ['-'] else []) ++
        natDigits (((2 * q.num.natAbs * 10 ^ 15 + q.den) / (2 * q.den)) / 10 ^ 15)) ++
        '.' :: digitsFixed 15 (((2 * q.num.natAbs * 10 ^ 15 + q.den) / (2 * q.den)) % 10 ^ 15) := by
    show fixed15Chars q = _
    unfold fixed15Chars
    rw [List.append_assoc]
  have := afterDot_shape
    ((if q.num < 0 then ['-'] else []) ++
      natDigits (((2 * q.num.natAbs * 10 ^ 15 + q.den) / (2 * q.den)) / 10 ^ 15))
    (((2 * q.num.natAbs * 10 ^ 15 + q.den) / (2 * q.den)) % 10 ^ 15)
  constructor
  · unfold charsAfterLastDot
    rw [hdata]
    exact this.1
  · rw [hdata]
    exact this.2

theorem enumFrom_map_fst {α β : Type} (f : Nat → β) :
    ∀ (n : Nat) (l : List α),
      (l.enumFrom n).map (fun p => f p.1) = (List.range' n l.length).map f := by
  intro n l
  induction l generalizing n with
  | nil => rfl
  | cons a l ih =>
    simp only [List.enumFrom, List.map_cons, List.length_cons, List.range', ih]

theorem enumFrom_map_snd {α β : Type} (f : α → β) :
    ∀ (n : Nat) (l : List α),
      (l.enumFrom n).map (fun p => f p.2) = l.map f := by
  intro n l
  induction l generalizing n with
  | nil => rfl
  | cons a l ih =>
    simp only [List.enumFrom, List.map_cons, ih]

theorem enum_map_fst {α β : Type} (f : Nat → β) (l : List α) :
    l.enum.map (fun p => f p.1) = (List.range l.length).map f := by
  rw [List.enum, enumFrom_map_fst, List.range_eq_range']

theorem enum_map_snd {α β : Type} (f : α → β) (l : List α) :
    l.enum.map (fun p => f p.2) = l.map f := by
  rw [List.enum, enumFrom_map_snd]

theorem pick_of_data_none : ∀ t : Technique, t.data = none → pick t = none := by
  intro t h
  obtain ⟨i, od⟩ := t
  simp only at h
  subst h
  rfl

theorem mpsLoop_all_unusable :
    ∀ ts : List Technique, (∀ t ∈ ts, unusable t = true) →
      mpsLoop ts = Except.ok [] := by
  intro ts
  induction ts with
  | nil => intro _; rfl
  | cons t rest ih =>
    intro h
    have ht : unusable t = true := h t (by simp)
    have hrest := ih (fun x hx => h x (List.mem_cons_of_mem _ hx))
    obtain ⟨i, od⟩ := t
    cases od with
    | none => simpa only [mpsLoop] using hrest
    | some d =>
      obtain ⟨om, or⟩ := d
      cases om with
      | some m => exact absurd ht (by simp [unusable])
      | none =>
        cases or with
        | some mpr => exact absurd ht (by simp [unusable])
        | none => simpa only [mpsLoop] using hrest

theorem list_map_congr {α β : Type} (f g : α → β) :
    ∀ l : List α, (∀ a ∈ l, f a = g a) → l.map f = l.map g := by
  intro l
  induction l with
  | nil => intro _; rfl
  | cons a l ih =>
    intro h
    simp only [List.map_cons]
    rw [h a (by simp), ih (fun x hx => h x (List.mem_cons_of_mem _ hx))]

theorem csvLoop_eq_bind (path : String) (cp : Option String) :
    ∀ l : List (Nat × DataFrame),
      csvLoop path cp l = l.flatMap (fun p =>
        (if pyTruthy cp then
          [(deriveIndexed (cp.getD "") (p.1 + 1) ".csv", to_csv_string p.2 false)]
         else []) ++
        [(deriveIndexed path (p.1 + 1) ".csv", to_csv_string p.2 false)]) := by
  intro l
  induction l with
  | nil => rfl
  | cons p rest ih =>
    simp only [csvLoop, List.flatMap_cons, ih, List.append_assoc]
    rfl

theorem csvLoop_length (path : String) (cp : Option String) :
    ∀ l : List (Nat × DataFrame),
      (csvLoop path cp l).length = (if pyTruthy cp then 2 else 1) * l.length := by
  intro l
  induction l with
  | nil => cases pyTruthy cp <;> rfl
  | cons p rest ih =>
    simp only [csvLoop, List.length_append, ih, List.length_cons]
    cases h : pyTruthy cp <;> simp [h] <;> ring

theorem csvLoop_content (path : String) (cp : Option String) :
    ∀ (l : List (Nat × DataFrame)) (w : String × String), w ∈ csvLoop path cp l →
      ∃ p ∈ l, w.2 = to_csv_string p.2 false := by
  intro l
  induction l with
  | nil => intro w hw; exact absurd hw (List.not_mem_nil w)
  | cons p rest ih =>
    intro w hw
    simp only [csvLoop, List.append_assoc, List.mem_append] at hw
    rcases hw with hw | hw
    · refine ⟨p, by simp, ?_⟩
      cases hcp : pyTruthy cp
      · rw [hcp] at hw
        simp at hw
      · rw [hcp] at hw
        simp only [if_true] at hw
        rcases List.mem_singleton.mp hw with rfl
        rfl
    · rcases hw with hw | hw
      · rcases List.mem_singleton.mp hw with rfl
        exact ⟨p, by simp, rfl⟩
      · obtain ⟨x, hx, he⟩ := ih w hw
        exact ⟨x, List.mem_cons_of_mem _ hx, he⟩

theorem csv_lines_false :
    ∀ d : DataFrame, csv_lines d false =
      String.intercalate "," (df_columns d) ::
        d.map (fun r => String.intercalate ","
          ((df_columns d).map (fun c => render_cell (List.lookup c r)))) := by
  intro d
  unfold csv_lines
  simp only [Bool.false_eq_true, if_false, List.nil_append]
  rw [enum_map_snd (fun r => String.intercalate ","
    ((df_columns d).map (fun c => render_cell (List.lookup c r)))) d]

theorem to_df_mpt_branch (P : Parsers) (path : String) (h : pathExt path = ".mpt") :
    to_df P path = Except.ok (DF.single (DataFrame.from_dict (P.mpt path).datapoints)) := by
  unfold to_df
  rw [if_pos h]

theorem to_df_mpr_branch (P : Parsers) (path : String) (h : pathExt path = ".mpr") :
    to_df P path = match listGet (P.mpr path) 1 with
      | Except.ok md => Except.ok (DF.single (DataFrame.from_dict md.data.datapoints))
      | Except.error e => Except.error e := by
  unfold to_df
  rw [if_neg (by rw [h]; decide), if_pos h]

theorem to_df_mps_branch (P : Parsers) (path : String) (h : pathExt path = ".mps") :
    to_df P path = match mpsLoop (P.mps path true).techniques with
      | Except.ok ds => Except.ok (DF.multi ds)
      | Except.error e => Except.error e := by
  unfold to_df
  rw [if_neg (by rw [h]; decide), if_neg (by rw [h]; decide), if_pos h]

theorem to_df_bad_branch (P : Parsers) (path : String)
    (h : pathExt path ∉ ([".mpt", ".mpr", ".mps"] : List String)) :
    to_df P path =
      Except.error (PyError.valueError ("Unrecognized file extension: " ++ pathExt path)) := by
  simp only [List.mem_cons, List.not_mem_nil, or_false, not_or] at h
  unfold to_df
  rw [if_neg h.1, if_neg h.2.1, if_neg h.2.2]

theorem to_csv_error_branch (P : Parsers) (path : String) (cp : Option String) (e : PyError)
    (h : to_df P path = Except.error e) : to_csv P path cp = Except.error e := by
  unfold to_csv
  rw [h]

theorem to_csv_single_branch (P : Parsers) (path : String) (cp : Option String) (d : DataFrame)
    (h : to_df P path = Except.ok (DF.single d)) :
    to_csv P path cp = Except.ok
      [((match cp with | none => _construct_path path ".csv" | some s => s),
        to_csv_string d false)] := by
  unfold to_csv
  rw [h]

theorem to_csv_multi_branch (P : Parsers) (path : String) (cp : Option String)
    (ds : List DataFrame) (h : to_df P path = Except.ok (DF.multi ds)) :
    to_csv P path cp = Except.ok (csvLoop path cp ds.enum) := by
  unfold to_csv
  rw [h]

theorem to_xlsx_multi_branch (P : Parsers) (path : String) (xp : Option String)
    (ds : List DataFrame) (h : to_df P path = Except.ok (DF.multi ds)) :
    to_xlsx P path xp = Except.ok
      [((match xp with | none => _construct_path path ".xlsx" | some s => s),
        xlsxLoop ds.enum)] := by
  unfold to_xlsx
  rw [h]

theorem to_df_mps_filterMap (P : Parsers) (path : String) (h : pathExt path = ".mps")
    (hwf : ∀ t ∈ (P.mps path true).techniques, techWF t = true) :
    to_df P path = Except.ok (DF.multi ((P.mps path true).techniques.filterMap pick)) := by
  rw [to_df_mps_branch P path h, mpsLoop_eq_filterMap _ hwf]

/-- C1: for a Settings (.mps) input, each technique's Table is built
from the technique's text (mpt) nested result whenever the data dict has
one, and from module 1 of the binary (mpr) nested result only when no
text entry exists; for techniques [T1 without data, T2 with both, T3
with binary only], to_df returns exactly the two DataFrames built from
T2's text result and T3's binary result, in that order. -/
theorem eclab_C1 :
    (∀ (P : Parsers) (path : String), pathExt path = ".mps" →
      (∀ t ∈ (P.mps path true).techniques, techWF t = true) →
      to_df P path = Except.ok (DF.multi ((P.mps path true).techniques.filterMap pick))) ∧
    (∀ (i : Nat) (m : Mpt) (ob : Option Mpr),
      pick ⟨i, some ⟨some m, ob⟩⟩ = some (DataFrame.from_dict m.datapoints)) ∧
    (∀ (i : Nat) (mpr : Mpr),
      pick ⟨i, some ⟨none, some mpr⟩⟩ =
        (mpr.get? 1).map (fun md => DataFrame.from_dict md.data.datapoints)) ∧
    (∀ (P : Parsers) (path : String) (i1 i2 i3 : Nat) (m2t : Mpt) (m2b m3 : Mpr)
      (md3 : MprModule),
      pathExt path = ".mps" →
      (P.mps path true).techniques =
        [⟨i1, none⟩, ⟨i2, some ⟨some m2t, some m2b⟩⟩, ⟨i3, some ⟨none, some m3⟩⟩] →
      m3.get? 1 = some md3 →
      to_df P path = Except.ok (DF.multi
        [DataFrame.from_dict m2t.datapoints, DataFrame.from_dict md3.data.datapoints])) := by
  refine ⟨to_df_mps_filterMap, fun i m ob => rfl, fun i mpr => rfl, ?_⟩
  intro P path i1 i2 i3 m2t m2b m3 md3 hext htech hmd
  rw [to_df_mps_branch P path hext, htech]
  simp only [mpsLoop, listGet, hmd]

/-- Witness for C1 at a concrete oracle: three techniques, T1 without
data, T2 with both representations, T3 with binary only; extraction
returns the Table from T2's text result then the Table from T3's binary
result. -/
theorem eclab_C1_w :
    to_df parsersThree "c.mps" = Except.ok (DF.multi
      [[[("a", Value.str "t2")]], [[("a", Value.str "b3")]]]) :=
  eclab_C1.2.2.2 parsersThree "c.mps" 0 1 2
    ⟨[[("a", Value.str "t2")]]⟩
    [⟨⟨[]⟩⟩, ⟨⟨[[("a", Value.str "b2")]]⟩⟩]
    [⟨⟨[]⟩⟩, ⟨⟨[[("a", Value.str "b3")]]⟩⟩]
    ⟨⟨[[("a", Value.str "b3")]]⟩⟩
    (by decide) (by decide) (by decide)

/-- C2: for a Settings (.mps) input, a technique without a data key
contributes no Table: the output is the ordered filterMap of the
techniques, its length never exceeds the technique count and is strictly
below it whenever some technique lacks data. -/
theorem eclab_C2 :
    ∀ (P : Parsers) (path : String), pathExt path = ".mps" →
      (∀ t ∈ (P.mps path true).techniques, techWF t = true) →
      to_df P path = Except.ok (DF.multi ((P.mps path true).techniques.filterMap pick)) ∧
      (∀ t ∈ (P.mps path true).techniques, t.data = none → pick t = none) ∧
      ((P.mps path true).techniques.filterMap pick).length ≤
        (P.mps path true).techniques.length ∧
      ((∃ t ∈ (P.mps path true).techniques, t.data = none) →
        ((P.mps path true).techniques.filterMap pick).length <
          (P.mps path true).techniques.length) := by
  intro P path hext hwf
  refine ⟨to_df_mps_filterMap P path hext hwf, fun t _ ht => pick_of_data_none t ht,
    List.length_filterMap_le pick _, ?_⟩
  rintro ⟨t, hmem, hdata⟩
  exact filterMap_length_lt pick _ ⟨t, hmem, pick_of_data_none t hdata⟩

/-- Witness for C2 at the concrete three-technique oracle: one of the
three techniques has no data, so only two Tables come out. -/
theorem eclab_C2_w :
    ((parsersThree.mps "c.mps" true).techniques.filterMap pick).length <
      (parsersThree.mps "c.mps" true).techniques.length :=
  (eclab_C2 parsersThree "c.mps" (by decide) (by decide)).2.2.2 (by decide)

/-- C9: for a path whose extension is none of .mpt, .mpr, .mps, parse
falls through its if-chain without assigning its result variable and the
final return raises UnboundLocalError, not a dedicated
unsupported-format error and not a defined return value. -/
theorem eclab_C9 :
    ∀ (P : Parsers) (path : String),
      pathExt path ∉ ([".mpt", ".mpr", ".mps"] : List String) →
      parse P path = Except.error (PyError.unboundLocal "parsed") ∧
      (∀ msg, parse P path ≠ Except.error (PyError.valueError msg)) ∧
      (∀ r, parse P path ≠ Except.ok r) := by
  intro P path h
  simp only [List.mem_cons, List.not_mem_nil, or_false, not_or] at h
  have hp : parse P path = Except.error (PyError.unboundLocal "parsed") := by
    unfold parse
    rw [if_neg h.1, if_neg h.2.1, if_neg h.2.2]
  refine ⟨hp, ?_, ?_⟩
  · intro msg hc
    rw [hp] at hc
    simp at hc
  · intro r hc
    rw [hp] at hc
    simp at hc

/-- Witness for C9 at a concrete unrecognized path. -/
theorem eclab_C9_w :
    parse parsersEmpty "run.dat" = Except.error (PyError.unboundLocal "parsed") :=
  (eclab_C9 parsersEmpty "run.dat" (by decide)).1

/-- C4: dispatch on the extension is case-sensitive; a path with an
unrecognized extension makes to_df raise ValueError, and both writers
propagate it without writing any file; each of the three recognized
extensions routes to exactly its own parser, and the result depends on
no other parser. -/
theorem eclab_C4 :
    (∀ (P : Parsers) (path : String) (cp xp : Option String),
      pathExt path ∉ ([".mpt", ".mpr", ".mps"] : List String) →
      to_df P path =
        Except.error (PyError.valueError ("Unrecognized file extension: " ++ pathExt path)) ∧
      to_csv P path cp =
        Except.error (PyError.valueError ("Unrecognized file extension: " ++ pathExt path)) ∧
      to_xlsx P path xp =
        Except.error (PyError.valueError ("Unrecognized file extension: " ++ pathExt path))) ∧
    (∀ (P : Parsers) (path : String), pathExt path = ".mpt" →
      to_df P path = Except.ok (DF.single (DataFrame.from_dict (P.mpt path).datapoints))) ∧
    (∀ (P Q : Parsers) (path : String), pathExt path = ".mpt" → P.mpt = Q.mpt →
      to_df P path = to_df Q path) ∧
    (∀ (P Q : Parsers) (path : String), pathExt path = ".mpr" → P.mpr = Q.mpr →
      to_df P path = to_df Q path) ∧
    (∀ (P Q : Parsers) (path : String), pathExt path = ".mps" → P.mps = Q.mps →
      to_df P path = to_df Q path) := by
  refine ⟨?_, to_df_mpt_branch, ?_, ?_, ?_⟩
  · intro P path cp xp h
    have hdf := to_df_bad_branch P path h
    refine ⟨hdf, ?_, ?_⟩
    · unfold to_csv
      rw [hdf]
    · unfold to_xlsx
      rw [hdf]
  · intro P Q path h hpq
    rw [to_df_mpt_branch P path h, to_df_mpt_branch Q path h, hpq]
  · intro P Q path h hpq
    rw [to_df_mpr_branch P path h, to_df_mpr_branch Q path h, hpq]
  · intro P Q path h hpq
    rw [to_df_mps_branch P path h, to_df_mps_branch Q path h, hpq]

/-- Witness for C4 at a concrete path whose extension matches a
recognized one only up to case. -/
theorem eclab_C4_w :
    to_df parsersEmpty "data.MPT" =
      Except.error (PyError.valueError "Unrecognized file extension: .MPT") :=
  ((eclab_C4.1 parsersEmpty "data.MPT" none none (by decide)).1).trans (by decide)

/-- C10: a technique whose data dict holds neither an mpt nor an mpr key
is silently skipped, contributing no Table and raising no error, and
when every technique lacks usable data the extraction yields the empty
list and the CSV writer writes no file. -/
theorem eclab_C10 :
    (∀ i : Nat, pick ⟨i, some ⟨none, none⟩⟩ = none) ∧
    (∀ (ts1 ts2 : List Technique) (i : Nat),
      mpsLoop (ts1 ++ ⟨i, some ⟨none, none⟩⟩ :: ts2) = mpsLoop (ts1 ++ ts2)) ∧
    (∀ (P : Parsers) (path : String) (cp : Option String),
      pathExt path = ".mps" →
      (∀ t ∈ (P.mps path true).techniques, unusable t = true) →
      to_df P path = Except.ok (DF.multi []) ∧ to_csv P path cp = Except.ok []) := by
  refine ⟨fun i => rfl, fun ts1 ts2 i => mpsLoop_skip_middle ts1 ts2 i ⟨none, none⟩ rfl rfl, ?_⟩
  intro P path cp hext hun
  have hdf : to_df P path = Except.ok (DF.multi []) := by
    rw [to_df_mps_branch P path hext, mpsLoop_all_unusable _ hun]
  refine ⟨hdf, ?_⟩
  unfold to_csv
  rw [hdf]
  rfl

/-- Witness for C10 at a concrete oracle whose two techniques both lack
usable data. -/
theorem eclab_C10_w :
    to_df parsersUnusable "u.mps" = Except.ok (DF.multi []) ∧
      to_csv parsersUnusable "u.mps" (some "z.csv") = Except.ok [] :=
  eclab_C10.2.2 parsersUnusable "u.mps" (some "z.csv") (by decide) (by decide)

set_option maxRecDepth 10000 in
/-- C5: path derivation is pure and deterministic; derive splits the
path at the last slash, strips the extension of the final component (the
stripped prefix and the dropped extension recompose to the component)
and appends the new extension; deriveIndexed is derive with the
zero-padded two-digit index inserted as an underscore group immediately
before the new extension, index 1 giving 01. -/
theorem eclab_C5 :
    (∀ p e : String, derive p e =
      String.mk (joinChars (splitChars p.data).1
        ((splitextChars (splitChars p.data).2).1 ++ e.data))) ∧
    (∀ p : String,
      (splitextChars (splitChars p.data).2).1 ++ (splitextChars (splitChars p.data).2).2 =
        (splitChars p.data).2) ∧
    (∀ (p : String) (i : Nat) (e : String),
      deriveIndexed p i e = derive p ("_" ++ pad2 i ++ e)) ∧
    pad2 1 = "01" ∧
    (∀ i : Nat, i < 100 → 1 ≤ i → (pad2 i).length = 2) ∧
    (∀ p e : String, derive p e = derive p e) ∧
    (∀ (p : String) (i : Nat) (e : String), deriveIndexed p i e = deriveIndexed p i e) := by
  refine ⟨fun _ _ => rfl, fun p => splitextChars_fst_append_snd _, fun _ _ _ => rfl,
    by decide, ?_, fun _ _ => rfl, fun _ _ _ => rfl⟩
  decide

/-- Witness for C5 at concrete arguments. -/
theorem eclab_C5_w :
    derive "d/f.mps" ".csv" = "d/f.csv" ∧ (pad2 3).length = 2 :=
  ⟨(eclab_C5.1 "d/f.mps" ".csv").trans (by decide),
    eclab_C5.2.2.2.2.1 3 (by decide) (by decide)⟩

/-- C7: for a single-Table extraction (text or binary input), the CSV
writer emits exactly one file, at the explicit path when one is
supplied, else at the source path with its extension replaced by
dot-csv. -/
theorem eclab_C7 :
    ∀ (P : Parsers) (path : String) (cp : Option String) (d : DataFrame),
      to_df P path = Except.ok (DF.single d) →
      to_csv P path cp = Except.ok
        [((match cp with | none => derive path ".csv" | some s => s),
          to_csv_string d false)] := by
  intro P path cp d h
  exact to_csv_single_branch P path cp d h

/-- Witness for C7 at a concrete text input without an explicit path. -/
theorem eclab_C7_w :
    to_csv parsersNum "t.mpt" none = Except.ok [("t.csv", "v\n1.500000000000000\n")] :=
  (eclab_C7 parsersNum "t.mpt" none [[("v", Value.num (Rat.mk' 3 2))]] (by decide)).trans
    (by decide)

/-- Counterexample to C3 as stated: with the multi-Table branch and the
supplied explicit path equal to the empty string, the writer performs
exactly one write per Table, to the source-derived indexed path only;
the explicit-path-derived indexed write the claim promises does not
happen, because the code guards it by Python truthiness, not by a
supplied-or-not test. -/
theorem eclab_C3_cex :
    to_df parsersOneText "a.mps" = Except.ok (DF.multi [[[("a", Value.str "x")]]]) ∧
    to_csv parsersOneText "a.mps" (some "") = Except.ok [("a_01.csv", "a\nx\n")] ∧
    ("a_01.csv" : String) ≠ deriveIndexed "" 1 ".csv" :=
  ⟨by decide, by decide, by decide⟩

/-- C3, amended: for each Table at zero-based enumeration position i the
multi-Table CSV writer writes to the source-derived indexed path for
index i+1, and additionally, when the supplied explicit path is
non-empty (Python-truthy), it first writes the same Table to the indexed
path derived from the explicit path; so each Table is written twice when
a non-empty explicit path is given and once otherwise. -/
theorem eclab_C3 :
    ∀ (P : Parsers) (path : String) (cp : Option String) (ds : List DataFrame),
      to_df P path = Except.ok (DF.multi ds) →
      to_csv P path cp = Except.ok (csvLoop path cp ds.enum) ∧
      csvLoop path cp ds.enum = ds.enum.flatMap (fun p =>
        (if pyTruthy cp then
          [(deriveIndexed (cp.getD "") (p.1 + 1) ".csv", to_csv_string p.2 false)]
         else []) ++
        [(deriveIndexed path (p.1 + 1) ".csv", to_csv_string p.2 false)]) ∧
      (csvLoop path cp ds.enum).length = (if pyTruthy cp then 2 else 1) * ds.length := by
  intro P path cp ds h
  refine ⟨to_csv_multi_branch P path cp ds h, csvLoop_eq_bind path cp ds.enum, ?_⟩
  rw [csvLoop_length path cp ds.enum, List.enum_length]

/-- Witness for the amended C3 at a concrete two-Table input with a
non-empty explicit path: four writes happen. -/
theorem eclab_C3_w :
    (csvLoop "b.mps" (some "out.csv")
      ([[[("a", Value.str "x")]], [[("a", Value.str "y")]]] : List DataFrame).enum).length = 4 :=
  ((eclab_C3 parsersTwoText "b.mps" (some "out.csv")
    [[[("a", Value.str "x")]], [[("a", Value.str "y")]]] (by decide)).2.2).trans (by decide)

/-- C6: for a multi-Table extraction the XLSX writer emits exactly one
workbook, at the explicit path when given and else at the source path
with extension dot-xlsx, holding one sheet per Table in Table order,
named by the zero-padded two-digit one-based position, each sheet's
header being exactly the Table's columns (so no row-index column). -/
theorem eclab_C6 :
    ∀ (P : Parsers) (path : String) (xp : Option String) (ds : List DataFrame),
      to_df P path = Except.ok (DF.multi ds) →
      to_xlsx P path xp = Except.ok
        [((match xp with | none => derive path ".xlsx" | some s => s), xlsxLoop ds.enum)] ∧
      (xlsxLoop ds.enum).map Sheet.name = (List.range ds.length).map (fun i => pad2 (i + 1)) ∧
      (xlsxLoop ds.enum).map Sheet.header = ds.map df_columns ∧
      (xlsxLoop ds.enum).map Sheet.rows =
        ds.map (fun d => d.map (fun r => (df_columns d).map (fun c => List.lookup c r))) := by
  intro P path xp ds h
  refine ⟨to_xlsx_multi_branch P path xp ds h, ?_, ?_, ?_⟩
  · unfold xlsxLoop
    rw [List.map_map]
    have hc : (Sheet.name ∘ fun p : Nat × DataFrame => df_to_sheet (pad2 (p.1 + 1)) p.2 false) =
        fun p : Nat × DataFrame => pad2 (p.1 + 1) := rfl
    rw [hc]
    exact enum_map_fst (fun i => pad2 (i + 1)) ds
  · unfold xlsxLoop
    rw [List.map_map]
    have hc : (Sheet.header ∘ fun p : Nat × DataFrame => df_to_sheet (pad2 (p.1 + 1)) p.2 false) =
        fun p : Nat × DataFrame => df_columns p.2 := by
      funext p
      simp [df_to_sheet]
    rw [hc]
    exact enum_map_snd df_columns ds
  · unfold xlsxLoop
    rw [List.map_map]
    have hc : (Sheet.rows ∘ fun p : Nat × DataFrame => df_to_sheet (pad2 (p.1 + 1)) p.2 false) =
        fun p : Nat × DataFrame => p.2.enum.map (fun q =>
          (df_columns p.2).map (fun c => List.lookup c q.2)) := by
      funext p
      simp [df_to_sheet]
    rw [hc]
    rw [enum_map_snd (fun d : DataFrame => d.enum.map (fun q =>
      (df_columns d).map (fun c => List.lookup c q.2))) ds]
    exact list_map_congr _ _ ds (fun d _ =>
      enum_map_snd (fun r => (df_columns d).map (fun c => List.lookup c r)) d)

/-- Witness for C6 at the concrete three-technique oracle: one workbook
at the derived path with two sheets named 01 and 02. -/
theorem eclab_C6_w :
    to_xlsx parsersThree "c.mps" none = Except.ok [("c.xlsx",
      [df_to_sheet "01" [[("a", Value.str "t2")]] false,
       df_to_sheet "02" [[("a", Value.str "b3")]] false])] :=
  ((eclab_C6 parsersThree "c.mps" none [[[("a", Value.str "t2")]], [[("a", Value.str "b3")]]]
    (by decide)).1).trans (by decide)

/-- C8: every file content the CSV writer emits, on the single-table and
the multi-table path alike, is the rendering of some extracted
DataFrame whose first line is the comma-joined column names in schema
order and whose data lines are exactly the cells of each record in
column order (no row-index column); and every numeric cell goes through
the fixed-point format that puts exactly fifteen digit characters after
the final dot. -/
theorem eclab_C8 :
    (∀ (P : Parsers) (path : String) (cp : Option String) (ws : List (String × String)),
      to_csv P path cp = Except.ok ws →
      ∀ w ∈ ws, ∃ d : DataFrame,
        w.2 = to_csv_string d false ∧
        csv_lines d false =
          String.intercalate "," (df_columns d) ::
            d.map (fun r => String.intercalate ","
              ((df_columns d).map (fun c => render_cell (List.lookup c r))))) ∧
    (∀ q : ℚ, render_cell (some (Value.num q)) = fixed15 q ∧
      charsAfterLastDot (fixed15 q) = 15 ∧
      ∀ c ∈ (fixed15 q).data.reverse.takeWhile (fun c => c != '.'), c.isDigit = true) := by
  constructor
  · intro P path cp ws hws w hw
    cases hdf : to_df P path with
    | error e =>
      rw [to_csv_error_branch P path cp e hdf] at hws
      exact absurd hws (by simp)
    | ok df =>
      cases df with
      | single d =>
        rw [to_csv_single_branch P path cp d hdf] at hws
        have h2 := Except.ok.inj hws
        rw [← h2] at hw
        rcases List.mem_singleton.mp hw with rfl
        exact ⟨d, rfl, csv_lines_false d⟩
      | multi ds =>
        rw [to_csv_multi_branch P path cp ds hdf] at hws
        have h2 := Except.ok.inj hws
        rw [← h2] at hw
        obtain ⟨p, _, he⟩ := csvLoop_content path cp ds.enum w hw
        exact ⟨p.2, he, csv_lines_false p.2⟩
  · intro q
    exact ⟨rfl, (fixed15_digit_count q).1, (fixed15_digit_count q).2⟩

/-- Witness for C8 at a concrete numeric single-table input. -/
theorem eclab_C8_w :
    (∃ d : DataFrame, ("t.csv", "v\n1.500000000000000\n").2 = to_csv_string d false ∧
      csv_lines d false =
        String.intercalate "," (df_columns d) ::
          d.map (fun r => String.intercalate ","
            ((df_columns d).map (fun c => render_cell (List.lookup c r))))) ∧
    charsAfterLastDot (fixed15 (Rat.mk' 3 2)) = 15 :=
  ⟨eclab_C8.1 parsersNum "t.mpt" none [("t.csv", "v\n1.500000000000000\n")] (by decide)
      ("t.csv", "v\n1.500000000000000\n") (by simp),
    (eclab_C8.2 (Rat.mk' 3 2)).2.1⟩

example : _construct_path "d/f.mps" ".csv" = "d/f.csv" := by decide
example : _construct_path "a.mps" "_01.csv" = "a_01.csv" := by decide
example : pad2 1 = "01" := by decide
example : pad2 12 = "12" := by decide
example : pathExt "a/b/c.mpr" = ".mpr" := by decide
example : pathExt ".bashrc" = "" := by decide
